import Mathlib

/-!
# Verification of the grapevine firehose pipeline (`src/firehose.rs`)

A shallow embedding of the event ingestion / buffering / gated dispatch /
multi-consumer fan-out pipeline of `src/firehose.rs`, together with proofs of
the specification claims about it.

Modelling conventions:
* GTK widgets are dropped; a `ListBox` holding message rows is a
  `List FirehosePost` (first element = first child = newest message, since the
  code prepends rows).
* `std::time::Instant` is modelled as `Nat` (milliseconds); `Instant::now()`
  becomes an explicit `now : Nat` argument at each handler invocation.
  Rust guarantees `Instant` is monotone, so successive `now` values are
  assumed non-decreasing where that matters.
* Rust `String::to_lowercase` is modelled by mapping `Char.toLower` over the
  string's character list (ASCII case folding — exactly what `String.toLower`
  does, written on `String.data` so the kernel can evaluate it; all strings in
  the claims are ASCII), and `str::contains` (byte-substring search, which on
  valid UTF-8 coincides with character-level contiguous-sublist search) is
  contiguous-sublist containment on the character lists.
* The `Rc<RefCell<...>>` shared state owned by the GTK main loop
  (`main_filter_keyword`, `main_list`, `splits`, `message_buffer`,
  `scroll_paused_until`) is collected into one record `FirehoseState`; every
  closure of `create_firehose_view` / `FirehoseControl` becomes a state
  transformer on that record.  All of them run on the single GTK thread, so
  sequential state passing is faithful.
-/

/-- Embeds `enum FacetType` from `src/data.rs`. -/
inductive FacetType where
  | Mention (did : String)
  | Link (url : String)
  | Tag (hashtag : String)
deriving DecidableEq, Repr

/-- Embeds `struct PostFacet` from `src/data.rs` (`end` is renamed `stop`). -/
structure PostFacet where
  start : Nat
  stop : Nat
  facet_type : FacetType
deriving DecidableEq, Repr

/-- Embeds `enum PostEmbed` from `src/data.rs`. -/
inductive PostEmbed where
  | Images (count : Nat) (alt_texts : List String)
  | External (uri title description : String)
  | Video
deriving DecidableEq, Repr

/-- Embeds `struct FirehosePost` from `src/data.rs`. -/
structure FirehosePost where
  timestamp : String
  did : String
  rkey : String
  text : String
  embed : Option PostEmbed
  facets : Option (List PostFacet)
deriving DecidableEq, Repr

/-- One split pane (`struct SplitPane` in `src/firehose.rs`), reduced to its
pipeline-relevant state: the filter keyword (`filter_keyword`) and the
message list (`list`, newest first). -/
structure SplitPane where
  filter_keyword : String
  list : List FirehosePost
deriving DecidableEq, Repr

/-- The pipeline state shared by the closures of `create_firehose_view`:
the main pane's filter keyword and list, the secondary splits, the arrival
buffer (`message_buffer`, oldest first), and the scroll-pause deadline
(`scroll_paused_until`). -/
structure FirehoseState where
  main_keyword : String
  main_list : List FirehosePost
  splits : List SplitPane
  message_buffer : List FirehosePost
  scroll_paused_until : Nat
deriving DecidableEq, Repr

/-- Embeds `post.text.to_lowercase().contains(&keyword.to_lowercase())` from
`broadcast_message` and the dispatch timer closure in `src/firehose.rs`:
case-insensitive substring containment. -/
def lowerContains (text keyword : String) : Bool :=
  decide (keyword.data.map Char.toLower <:+: text.data.map Char.toLower)

/-- The main pane's acceptance condition, from the dispatch timer closure
(`src/firehose.rs:357`):
`main_keyword.is_empty() || post.text.to_lowercase().contains(&main_keyword.to_lowercase())`. -/
def main_accepts (keyword : String) (post : FirehosePost) : Bool :=
  keyword.isEmpty || lowerContains post.text keyword

/-- A split pane's acceptance condition, from `FirehoseControl::broadcast_message`
(`src/firehose.rs:240`):
`!keyword.is_empty() && post.text.to_lowercase().contains(&keyword.to_lowercase())`. -/
def split_accepts (keyword : String) (post : FirehosePost) : Bool :=
  !keyword.isEmpty && lowerContains post.text keyword

/-- The trailing truncation loop of `add_message_to_list`
(`src/firehose.rs:645-656`): walk the rows front to back counting them and
remove every row whose running count exceeds 100. -/
def limit_messages (count : Nat) : List FirehosePost → List FirehosePost
  | [] => []
  | current :: rest =>
      if count + 1 > 100 then limit_messages (count + 1) rest
      else current :: limit_messages (count + 1) rest

/-- Embeds `add_message_to_list` (`src/firehose.rs:401-657`), restricted to its list
effect: prepend the new post (newest at the top, line 642), then limit the
list to 100 messages (lines 645-656). -/
def add_message_to_list (list : List FirehosePost) (post : FirehosePost) :
    List FirehosePost :=
  limit_messages 0 (post :: list)

/-- Embeds `FirehoseControl::broadcast_message` (`src/firehose.rs:236-244`): for each
split, if the filter keyword is non-empty and case-insensitively contained in
the post text, add the post to that split's list. -/
def broadcast_message (splits : List SplitPane) (post : FirehosePost) :
    List SplitPane :=
  splits.map fun split =>
    if split_accepts split.filter_keyword post then
      { split with list := add_message_to_list split.list post }
    else split

/-- The per-post body of the dispatch timer loop (`src/firehose.rs:354-363`):
add the post to the main list if it matches the main filter, then broadcast it
to all splits. -/
def process_post (st : FirehoseState) (post : FirehosePost) : FirehoseState :=
  { st with
    main_list :=
      if main_accepts st.main_keyword post then
        add_message_to_list st.main_list post
      else st.main_list,
    splits := broadcast_message st.splits post }

/-- Processing one drained batch: fold `process_post` over the posts in
arrival order (`for post in buffer.iter()`, `src/firehose.rs:354`). -/
def process_batch (st : FirehoseState) (posts : List FirehosePost) :
    FirehoseState :=
  posts.foldl process_post st

/-- The gate check of the dispatch timer (`src/firehose.rs:347`):
`*scroll_paused_for_timer.borrow() > Instant::now()`. -/
def is_paused (st : FirehoseState) (now : Nat) : Bool :=
  decide (st.scroll_paused_until > now)

/-- One firing of the 200 ms dispatch timer (`src/firehose.rs:345-372`):
if paused, do nothing; otherwise, if the buffer is non-empty, process every
buffered post in order and clear the buffer. -/
def dispatch_tick (st : FirehoseState) (now : Nat) : FirehoseState :=
  if is_paused st now then st
  else if st.message_buffer.isEmpty then st
  else { process_batch st st.message_buffer with message_buffer := [] }

/-- The receiver task (`src/firehose.rs:337-341`): each post received from the
channel is pushed onto the end of the message buffer. -/
def receive_post (st : FirehoseState) (post : FirehosePost) : FirehoseState :=
  { st with message_buffer := st.message_buffer ++ [post] }

/-- A scroll handler invocation (`src/firehose.rs:305-308` for the main pane,
`src/firehose.rs:80-83` for splits; both bodies are identical): set the shared
pause deadline to now + 2 seconds (2000 ms here). -/
def cooldown_ms : Nat := 2000

/-- Embeds `*scroll_paused_clone.borrow_mut() = Instant::now() + Duration::from_secs(2)`. -/
def scroll_signal (st : FirehoseState) (now : Nat) : FirehoseState :=
  { st with scroll_paused_until := now + cooldown_ms }

/-- The main pane's `connect_search_changed` handler
(`src/firehose.rs:388-396`): store the new keyword and clear the main list. -/
def main_search_changed (st : FirehoseState) (keyword : String) : FirehoseState :=
  { st with main_keyword := keyword, main_list := [] }

/-- A split's `connect_search_changed` handler (`src/firehose.rs:94-102`):
store the new keyword and clear that split's list. -/
def split_search_changed (split : SplitPane) (keyword : String) : SplitPane :=
  { split with filter_keyword := keyword, list := [] }

/-- The state-level effect of a split's search change: update split number `i`. -/
def split_search_changed_at (st : FirehoseState) (i : Nat) (keyword : String) :
    FirehoseState :=
  { st with
    splits := st.splits.mapIdx fun j sp =>
      if j = i then split_search_changed sp keyword else sp }

/-- Embeds `FirehoseControl::add_split` (`src/firehose.rs:33-130`), reduced to its
pipeline effect: push a new split with an empty filter keyword (line 89) and
an empty list. -/
def add_split (st : FirehoseState) : FirehoseState :=
  { st with splits := st.splits ++ [{ filter_keyword := "", list := [] }] }

/-- The close-button handler of a split (`src/firehose.rs:121-129`): find the
split's position and remove it.  Identity when `i` is out of range, matching
the `if let Some(pos) = ...` guard. -/
def close_split (st : FirehoseState) (i : Nat) : FirehoseState :=
  { st with splits := st.splits.eraseIdx i }

/-- The state created by `create_firehose_view` (`src/firehose.rs:296-333`):
empty main keyword, empty lists, no splits, empty buffer, and
`scroll_paused_until = Instant::now()` (line 300), i.e. the creation instant. -/
def create_firehose_state (t0 : Nat) : FirehoseState :=
  { main_keyword := ""
    main_list := []
    splits := []
    message_buffer := []
    scroll_paused_until := t0 }

/-- An externally observable action in the cooperative (GTK) domain: the
arrival of a post from the channel receiver, or a dispatch timer tick at a
given instant. -/
def run_trace (st : FirehoseState) (actions : List (Nat ⊕ FirehosePost)) :
    FirehoseState :=
  actions.foldl
    (fun s a =>
      match a with
      | Sum.inl t => dispatch_tick s t
      | Sum.inr p => receive_post s p)
    st

/-- The posts that arrive during a trace, in arrival order. -/
def arrivals : List (Nat ⊕ FirehosePost) → List FirehosePost
  | [] => []
  | Sum.inl _ :: tr => arrivals tr
  | Sum.inr p :: tr => p :: arrivals tr

/-- A decoded event as seen by the `while let Ok(event) = receiver.recv_async()`
loop of `start_jetstream` (`src/firehose.rs:680-711`).  Only a `Commit(Create)`
carrying a `KnownRecord::AppBskyFeedPost` produces a `FirehosePost`; every
other event shape (other commit kinds, other record kinds, non-commit events)
falls through the `_ => {}` arms and is collapsed into `otherEvent`. -/
inductive BridgeEvent where
  | commitCreatePost (post : FirehosePost)
  | otherEvent
deriving DecidableEq, Repr

/-- The posts that the loop of `start_jetstream` would decode from a stream of
events, in stream order. -/
def createdPosts : List BridgeEvent → List FirehosePost
  | [] => []
  | BridgeEvent.commitCreatePost p :: es => p :: createdPosts es
  | BridgeEvent.otherEvent :: es => createdPosts es

/-- Embeds the event loop of `start_jetstream` (`src/firehose.rs:680-713`).
The flume channel is modelled by `alive`, the number of sends the receiving
side will still accept before it is dropped (`tx.send` returns `Err` once the
receiver is gone), and by `sent`, the posts successfully handed over so far.
On a failed send the loop breaks (line 704); when the loop exits — by a failed
send or by the stream ending — the function returns `Ok` (line 713), carrying
the successfully forwarded posts as the observable effect. -/
def run_jetstream_loop :
    List BridgeEvent → Nat → List FirehosePost → Except String (List FirehosePost)
  | [], _, sent => Except.ok sent
  | BridgeEvent.commitCreatePost p :: rest, alive, sent =>
      if alive = 0 then Except.ok sent
      else run_jetstream_loop rest (alive - 1) (sent ++ [p])
  | BridgeEvent.otherEvent :: rest, alive, sent =>
      run_jetstream_loop rest alive sent

/-- Embeds `start_jetstream` (`src/firehose.rs:659-714`) after a successful
connection: run the event loop on the stream with `alive` sends available. -/
def start_jetstream (events : List BridgeEvent) (alive : Nat) :
    Except String (List FirehosePost) :=
  run_jetstream_loop events alive []

/-! ## Auxiliary lemmas -/

/-- The truncation loop keeps the first `100 - count` rows. -/
lemma limit_messages_eq_take (l : List FirehosePost) (n : Nat) :
    limit_messages n l = l.take (100 - n) := by
  induction l generalizing n with
  | nil => simp [limit_messages]
  | cons current rest ih =>
      by_cases h : n + 1 > 100
      · have h0 : 100 - n = 0 := by omega
        have h1 : 100 - (n + 1) = 0 := by omega
        simp [limit_messages, h, ih, h0, h1]
      · have h1 : 100 - n = (100 - (n + 1)) + 1 := by omega
        simp [limit_messages, h, ih, h1]

/-- Prepending a row and then running the truncation loop keeps the first
100 rows. -/
lemma add_message_to_list_eq_take (l : List FirehosePost) (p : FirehosePost) :
    add_message_to_list l p = (p :: l).take 100 := by
  simp [add_message_to_list, limit_messages_eq_take]

/-- The bound produced by the truncation loop. -/
lemma length_add_message_to_list (l : List FirehosePost) (p : FirehosePost) :
    (add_message_to_list l p).length ≤ 100 := by
  simp [add_message_to_list_eq_take, List.length_take]

/-- Truncating the tail first does not change a truncated append. -/
lemma take_append_take {α : Type} (a l : List α) (n : Nat) :
    (a ++ l.take n).take n = (a ++ l).take n := by
  rw [List.take_append_eq_append_take, List.take_append_eq_append_take,
    List.take_take]
  have h : min (n - a.length) n = n - a.length := Nat.min_eq_left (Nat.sub_le _ _)
  rw [h]

/-- Processing a post does not touch the main filter keyword. -/
lemma process_post_main_keyword (st : FirehoseState) (p : FirehosePost) :
    (process_post st p).main_keyword = st.main_keyword := rfl

/-- Processing a post does not touch the arrival buffer. -/
lemma process_post_message_buffer (st : FirehoseState) (p : FirehosePost) :
    (process_post st p).message_buffer = st.message_buffer := rfl

/-- Processing a post does not touch the pause deadline. -/
lemma process_post_scroll_paused (st : FirehoseState) (p : FirehosePost) :
    (process_post st p).scroll_paused_until = st.scroll_paused_until := rfl

/-- Processing a post does not depend on the arrival buffer. -/
lemma process_post_set_buffer (st : FirehoseState) (b : List FirehosePost)
    (p : FirehosePost) :
    process_post { st with message_buffer := b } p =
      { process_post st p with message_buffer := b } := rfl

/-- Processing a batch does not touch the main filter keyword. -/
lemma process_batch_main_keyword (ps : List FirehosePost) (st : FirehoseState) :
    (process_batch st ps).main_keyword = st.main_keyword := by
  induction ps generalizing st with
  | nil => rfl
  | cons p ps ih => simpa [process_batch, List.foldl_cons] using ih (process_post st p)

/-- Processing a batch does not touch the pause deadline. -/
lemma process_batch_scroll_paused (ps : List FirehosePost) (st : FirehoseState) :
    (process_batch st ps).scroll_paused_until = st.scroll_paused_until := by
  induction ps generalizing st with
  | nil => rfl
  | cons p ps ih => simpa [process_batch, List.foldl_cons] using ih (process_post st p)

/-- Processing a batch does not depend on the arrival buffer. -/
lemma process_batch_set_buffer (ps : List FirehosePost) (st : FirehoseState)
    (b : List FirehosePost) :
    process_batch { st with message_buffer := b } ps =
      { process_batch st ps with message_buffer := b } := by
  induction ps generalizing st with
  | nil => rfl
  | cons p ps ih =>
      simp only [process_batch, List.foldl_cons] at *
      rw [process_post_set_buffer, ih]

/-- The shape a consumer's retention buffer takes after one drained batch:
the accepted posts, newest first, in front of the old rows, truncated to 100. -/
def batch_result (accepts : FirehosePost → Bool) (posts old : List FirehosePost) :
    List FirehosePost :=
  ((posts.filter accepts).reverse ++ old).take 100

/-- Main-pane effect of one drained batch. -/
lemma process_batch_main (ps : List FirehosePost) (st : FirehoseState)
    (h : st.main_list.length ≤ 100) :
    (process_batch st ps).main_list =
      batch_result (main_accepts st.main_keyword) ps st.main_list := by
  induction ps generalizing st with
  | nil => simp [process_batch, batch_result, List.take_of_length_le h]
  | cons p ps ih =>
      simp only [process_batch, List.foldl_cons] at *
      by_cases hp : main_accepts st.main_keyword p
      · have hlist : (process_post st p).main_list = (p :: st.main_list).take 100 := by
          simp [process_post, hp, add_message_to_list_eq_take]
        have hlen : (process_post st p).main_list.length ≤ 100 := by
          simp [hlist, List.length_take]
        have := ih (process_post st p) hlen
        rw [this, hlist, process_post_main_keyword, batch_result, batch_result,
          take_append_take, List.filter_cons, if_pos hp, List.reverse_cons,
          List.append_assoc]
        rfl
      · have hlist : (process_post st p).main_list = st.main_list := by
          simp [process_post, hp]
        have := ih (process_post st p) (by rw [hlist]; exact h)
        rw [this, hlist, process_post_main_keyword, batch_result, batch_result,
          List.filter_cons, if_neg hp]

/-- The effect of one drained batch on a single split pane: fold the
per-post `broadcast_message` step over the batch. -/
def split_deliver (sp : SplitPane) (posts : List FirehosePost) : SplitPane :=
  posts.foldl
    (fun sp p =>
      if split_accepts sp.filter_keyword p then
        { sp with list := add_message_to_list sp.list p }
      else sp)
    sp

/-- Fan-out to the splits acts on each split independently. -/
lemma process_batch_splits (ps : List FirehosePost) (st : FirehoseState) :
    (process_batch st ps).splits = st.splits.map (fun sp => split_deliver sp ps) := by
  induction ps generalizing st with
  | nil =>
      simp [process_batch, split_deliver]
  | cons p ps ih =>
      simp only [process_batch, List.foldl_cons] at *
      rw [ih (process_post st p)]
      show (broadcast_message st.splits p).map _ = _
      rw [broadcast_message, List.map_map]
      apply List.map_congr_left
      intro sp _
      simp only [Function.comp, split_deliver, List.foldl_cons]

/-- A split's batch delivery keeps the keyword and produces the
filtered-newest-first-truncated list. -/
lemma split_deliver_eq (ps : List FirehosePost) (sp : SplitPane)
    (h : sp.list.length ≤ 100) :
    split_deliver sp ps =
      { sp with list := batch_result (split_accepts sp.filter_keyword) ps sp.list } := by
  induction ps generalizing sp with
  | nil =>
      simp [split_deliver, batch_result, List.take_of_length_le h]
  | cons p ps ih =>
      simp only [split_deliver, List.foldl_cons] at *
      by_cases hp : split_accepts sp.filter_keyword p
      · rw [if_pos hp]
        have hlen : (add_message_to_list sp.list p).length ≤ 100 :=
          length_add_message_to_list sp.list p
        rw [ih { sp with list := add_message_to_list sp.list p } hlen]
        simp only [add_message_to_list_eq_take, batch_result, List.filter_cons,
          if_pos hp, List.reverse_cons, List.append_assoc]
        rw [take_append_take]
        rfl
      · rw [if_neg hp, ih sp h]
        simp only [batch_result, List.filter_cons, if_neg hp]

/-- A gated dispatch tick leaves the state untouched. -/
lemma dispatch_tick_gated (st : FirehoseState) (now : Nat)
    (h : now < st.scroll_paused_until) :
    dispatch_tick st now = st := by
  rw [dispatch_tick, if_pos]
  simpa [is_paused] using h

/-- An ungated dispatch tick processes the whole buffer and clears it. -/
lemma dispatch_tick_open (st : FirehoseState) (now : Nat)
    (h : st.scroll_paused_until ≤ now) :
    dispatch_tick st now =
      { process_batch st st.message_buffer with message_buffer := [] } := by
  have hp : is_paused st now = false := by
    simp only [is_paused, decide_eq_false_iff_not]
    omega
  rw [dispatch_tick, hp]
  simp only [Bool.false_eq_true, if_false]
  by_cases hB : st.message_buffer.isEmpty
  · rw [if_pos hB]
    have hnil : st.message_buffer = [] := by simpa using hB
    cases st with
    | mk a b c d e =>
        simp only at hnil
        simp [process_batch, hnil]
  · rw [if_neg hB]

/-- While every tick in a trace is gated, the trace only appends the
arriving posts to the buffer. -/
lemma run_trace_gated (tr : List (Nat ⊕ FirehosePost)) (st : FirehoseState)
    (hg : ∀ t, Sum.inl t ∈ tr → t < st.scroll_paused_until) :
    run_trace st tr = { st with message_buffer := st.message_buffer ++ arrivals tr } := by
  induction tr generalizing st with
  | nil => cases st; simp [run_trace, arrivals]
  | cons a tr ih =>
      cases a with
      | inl t =>
          have ht : t < st.scroll_paused_until := hg t (List.mem_cons_self _ _)
          show run_trace (dispatch_tick st t) tr = _
          rw [dispatch_tick_gated st t ht, arrivals]
          exact ih st fun u hu => hg u (List.mem_cons_of_mem _ hu)
      | inr p =>
          show run_trace (receive_post st p) tr = _
          rw [ih (receive_post st p)
            (fun u hu => hg u (List.mem_cons_of_mem _ hu))]
          simp [receive_post, arrivals]

/-- Posts arriving one by one extend the buffer in arrival order. -/
lemma foldl_receive (ps : List FirehosePost) (st : FirehoseState) :
    ps.foldl receive_post st = { st with message_buffer := st.message_buffer ++ ps } := by
  induction ps generalizing st with
  | nil => cases st; simp
  | cons p ps ih =>
      rw [List.foldl_cons, ih (receive_post st p)]
      simp [receive_post]

/-- Mapping commutes with removing an element by index. -/
lemma map_eraseIdx {α β : Type} (f : α → β) (l : List α) (i : Nat) :
    (l.eraseIdx i).map f = (l.map f).eraseIdx i := by
  induction l generalizing i with
  | nil => simp
  | cons a l ih =>
      cases i with
      | zero => simp
      | succ j => simp [ih]

/-- Removing a split commutes with processing one post. -/
lemma process_post_close (st : FirehoseState) (i : Nat) (p : FirehosePost) :
    process_post (close_split st i) p = close_split (process_post st p) i := by
  simp [process_post, close_split, broadcast_message, map_eraseIdx]

/-- Removing a split commutes with processing a batch. -/
lemma process_batch_close (ps : List FirehosePost) (st : FirehoseState) (i : Nat) :
    process_batch (close_split st i) ps = close_split (process_batch st ps) i := by
  induction ps generalizing st with
  | nil => rfl
  | cons p ps ih =>
      show process_batch (process_post (close_split st i) p) ps = _
      rw [process_post_close, ih]
      rfl

/-- Removing a split commutes with a dispatch tick. -/
lemma dispatch_tick_close (st : FirehoseState) (i : Nat) (now : Nat) :
    dispatch_tick (close_split st i) now = close_split (dispatch_tick st now) i := by
  by_cases hp : is_paused st now
  · have hp2 : is_paused (close_split st i) now = true := hp
    rw [dispatch_tick, dispatch_tick, if_pos hp, if_pos hp2]
  · have hp2 : is_paused (close_split st i) now = false := by
      simpa [is_paused, close_split] using hp
    rw [dispatch_tick, dispatch_tick, hp2, eq_false_of_ne_true hp]
    simp only [Bool.false_eq_true, if_false]
    by_cases hB : st.message_buffer.isEmpty
    · have hB2 : (close_split st i).message_buffer.isEmpty := hB
      rw [if_pos hB, if_pos hB2]
    · have hB2 : (close_split st i).message_buffer.isEmpty = false :=
        eq_false_of_ne_true hB
      rw [if_neg hB, hB2]
      simp only [Bool.false_eq_true, if_false]
      show { process_batch (close_split st i) st.message_buffer with message_buffer := [] } = _
      rw [process_batch_close]
      rfl

/-- Removing a split commutes with receiving a post. -/
lemma receive_post_close (st : FirehoseState) (i : Nat) (p : FirehosePost) :
    receive_post (close_split st i) p = close_split (receive_post st p) i := rfl

/-- Removing a split commutes with any trace of arrivals and ticks. -/
lemma run_trace_close (tr : List (Nat ⊕ FirehosePost)) (st : FirehoseState) (i : Nat) :
    run_trace (close_split st i) tr = close_split (run_trace st tr) i := by
  induction tr generalizing st with
  | nil => rfl
  | cons a tr ih =>
      cases a with
      | inl t =>
          show run_trace (dispatch_tick (close_split st i) t) tr = _
          rw [dispatch_tick_close, ih]
          rfl
      | inr p =>
          show run_trace (receive_post (close_split st i) p) tr = _
          rw [receive_post_close, ih]
          rfl

/-- Decoding distributes over stream concatenation. -/
lemma createdPosts_append (es1 es2 : List BridgeEvent) :
    createdPosts (es1 ++ es2) = createdPosts es1 ++ createdPosts es2 := by
  induction es1 with
  | nil => simp [createdPosts]
  | cons e es ih => cases e <;> simp [createdPosts, ih]

/-- The bridge loop always returns `Ok`, carrying the posts sent while the
receiver was still alive. -/
lemma run_jetstream_loop_eq (es : List BridgeEvent) (alive : Nat)
    (sent : List FirehosePost) :
    run_jetstream_loop es alive sent =
      Except.ok (sent ++ (createdPosts es).take alive) := by
  induction es generalizing alive sent with
  | nil => simp [run_jetstream_loop, createdPosts]
  | cons e es ih =>
      cases e with
      | commitCreatePost p =>
          by_cases h : alive = 0
          · simp [run_jetstream_loop, h, createdPosts]
          · obtain ⟨a, rfl⟩ : ∃ a, alive = a + 1 := ⟨alive - 1, by omega⟩
            simp [run_jetstream_loop, createdPosts, ih]
      | otherEvent => simp [run_jetstream_loop, createdPosts, ih]

/-- A post carrying only text, for concrete scenarios. -/
def samplePost (t : String) : FirehosePost :=
  { timestamp := "", did := "", rkey := "", text := t, embed := none, facets := none }

/-! ## Claim theorems -/

/-- C1: For every consumer (the primary pane and every secondary split), after
every Fan-out Router invocation that inserts an Event into that consumer's
retention buffer, the buffer's length is at most 100, for any number and
volume of inserted Events.  Every insertion — into the primary pane
(`src/firehose.rs:358`) and into a split (`src/firehose.rs:241`) — goes
through `add_message_to_list`, whose result never exceeds 100 rows; hence
after one router step each buffer is either freshly bounded or untouched. -/
theorem retention_buffer_bounded (l : List FirehosePost) (p : FirehosePost)
    (st : FirehoseState) :
    (add_message_to_list l p).length ≤ 100 ∧
    ((process_post st p).main_list.length ≤ 100 ∨
      (process_post st p).main_list = st.main_list) ∧
    (∀ sp ∈ (process_post st p).splits, sp.list.length ≤ 100 ∨ sp ∈ st.splits) := by
  refine ⟨length_add_message_to_list l p, ?_, ?_⟩
  · by_cases hp : main_accepts st.main_keyword p
    · left
      simp [process_post, hp, length_add_message_to_list]
    · right
      simp [process_post, hp]
  · intro sp hsp
    have hsp2 : sp ∈ broadcast_message st.splits p := hsp
    rw [broadcast_message, List.mem_map] at hsp2
    obtain ⟨sp0, hsp0, rfl⟩ := hsp2
    by_cases hacc : split_accepts sp0.filter_keyword p
    · left
      simp [hacc, length_add_message_to_list]
    · right
      simpa [hacc] using hsp0

/-- C2: For every dispatch tick at which the gate is suspended, the tick
removes nothing from the Arrival Buffer and dispatches nothing; and for every
sequence of arrivals (interleaved with further gated ticks) during a
suspension, the first tick after the gate lapses dispatches exactly the
buffered Events, in their original arrival order: the post-lapse tick equals
one `process_batch` pass over the old buffer followed by the arrivals, and the
buffer is cleared. -/
theorem gate_suspension_no_loss (st : FirehoseState) (tg : Nat)
    (tr : List (Nat ⊕ FirehosePost)) (now : Nat)
    (hg : ∀ t, Sum.inl t ∈ tr → t < st.scroll_paused_until)
    (htg : tg < st.scroll_paused_until)
    (hnow : st.scroll_paused_until ≤ now) :
    dispatch_tick st tg = st ∧
    run_trace st tr = { st with message_buffer := st.message_buffer ++ arrivals tr } ∧
    dispatch_tick (run_trace st tr) now =
      { process_batch st (st.message_buffer ++ arrivals tr) with message_buffer := [] } := by
  refine ⟨dispatch_tick_gated st tg htg, run_trace_gated tr st hg, ?_⟩
  rw [run_trace_gated tr st hg,
    dispatch_tick_open { st with message_buffer := st.message_buffer ++ arrivals tr } now hnow]
  show { process_batch { st with message_buffer := st.message_buffer ++ arrivals tr }
      (st.message_buffer ++ arrivals tr) with message_buffer := [] } = _
  rw [process_batch_set_buffer]

/-- Witness for C2: a gated tick at t=3 under a deadline of 10 changes
nothing; a gated tick at t=5 plus one arrival leave the buffer grown; the
first open tick at t=12 flushes old and new posts in order. -/
def w2state : FirehoseState :=
  { main_keyword := ""
    main_list := []
    splits := [{ filter_keyword := "cat", list := [] }]
    message_buffer := [samplePost "old post"]
    scroll_paused_until := 10 }

/-- Trace for the C2 witness: one gated tick, then one arrival. -/
def w2trace : List (Nat ⊕ FirehosePost) :=
  [Sum.inl 5, Sum.inr (samplePost "a cat arrives")]

theorem gate_suspension_no_loss_witness :
    (∀ t, Sum.inl t ∈ w2trace → t < w2state.scroll_paused_until) ∧
    3 < w2state.scroll_paused_until ∧
    w2state.scroll_paused_until ≤ 12 ∧
    (dispatch_tick w2state 3 = w2state ∧
     run_trace w2state w2trace =
       { w2state with message_buffer := w2state.message_buffer ++ arrivals w2trace } ∧
     dispatch_tick (run_trace w2state w2trace) 12 =
       { process_batch w2state (w2state.message_buffer ++ arrivals w2trace) with
         message_buffer := [] }) := by
  have hg : ∀ t, Sum.inl t ∈ w2trace → t < w2state.scroll_paused_until := by
    intro t ht
    simp only [w2trace, List.mem_cons, List.not_mem_nil, or_false] at ht
    rcases ht with ht | ht
    · cases Sum.inl.inj ht
      decide
    · exact absurd ht (by simp)
  exact ⟨hg, by decide, by decide,
    gate_suspension_no_loss w2state 3 w2trace 12 hg (by decide) (by decide)⟩

/-- C3: The primary consumer with an empty filter string accepts every Event
(pass-through); a secondary consumer with an empty filter string accepts none;
for a non-empty filter both roles accept an Event exactly when the filter is a
case-insensitive substring of the Event's text (`lowerContains`). -/
theorem filter_empty_asymmetry (post : FirehosePost) (kw : String)
    (h : kw.isEmpty = false) :
    main_accepts "" post = true ∧
    split_accepts "" post = false ∧
    main_accepts kw post = lowerContains post.text kw ∧
    split_accepts kw post = lowerContains post.text kw := by
  refine ⟨rfl, rfl, ?_, ?_⟩ <;> simp [main_accepts, split_accepts, h]

/-- Witness for C3 at the keyword "cat" and a post reading "dogs only". -/
theorem filter_empty_asymmetry_witness :
    ("cat" : String).isEmpty = false ∧
    (main_accepts "" (samplePost "dogs only") = true ∧
     split_accepts "" (samplePost "dogs only") = false ∧
     main_accepts "cat" (samplePost "dogs only") =
       lowerContains (samplePost "dogs only").text "cat" ∧
     split_accepts "cat" (samplePost "dogs only") =
       lowerContains (samplePost "dogs only").text "cat") :=
  ⟨by decide, filter_empty_asymmetry (samplePost "dogs only") "cat" (by decide)⟩

/-- C4: Every scroll signal sets the shared suspend deadline to now plus the
2-second cooldown; under a monotone clock (a later signal has a later `now`)
deadlines never decrease — neither across two signals nor from the creation
deadline to the first signal — and `is_paused` holds exactly when the current
time is before the deadline. -/
theorem gate_signal_monotone (st : FirehoseState) (t0 t1 t2 now : Nat)
    (h12 : t1 ≤ t2) (h02 : t0 ≤ t2) :
    (scroll_signal st t1).scroll_paused_until = t1 + cooldown_ms ∧
    (scroll_signal st t1).scroll_paused_until ≤
      (scroll_signal (scroll_signal st t1) t2).scroll_paused_until ∧
    (create_firehose_state t0).scroll_paused_until ≤
      (scroll_signal (create_firehose_state t0) t2).scroll_paused_until ∧
    (is_paused st now = true ↔ now < st.scroll_paused_until) := by
  refine ⟨rfl, ?_, ?_, ?_⟩
  · show t1 + cooldown_ms ≤ t2 + cooldown_ms
    omega
  · show t0 ≤ t2 + cooldown_ms
    omega
  · simp [is_paused]

/-- Witness for C4 with signals at t=1 and t=3 on a freshly created state. -/
theorem gate_signal_monotone_witness :
    (1 : Nat) ≤ 3 ∧ (0 : Nat) ≤ 3 ∧
    ((scroll_signal (create_firehose_state 0) 1).scroll_paused_until =
       1 + cooldown_ms ∧
     (scroll_signal (create_firehose_state 0) 1).scroll_paused_until ≤
       (scroll_signal (scroll_signal (create_firehose_state 0) 1) 3).scroll_paused_until ∧
     (create_firehose_state 0).scroll_paused_until ≤
       (scroll_signal (create_firehose_state 0) 3).scroll_paused_until ∧
     (is_paused (create_firehose_state 0) 2 = true ↔
       2 < (create_firehose_state 0).scroll_paused_until)) :=
  ⟨by decide, by decide,
    gate_signal_monotone (create_firehose_state 0) 0 1 3 2 (by decide) (by decide)⟩

/-- C5: On an ungated tick, Events drained from the Arrival Buffer are
delivered to every consumer in the order they were received from the Adapter
(`batch_result` filters the buffer in arrival order), and each accepted Event
is inserted at the front of the consumer's retention buffer, so the buffer
reads newest-first (the accepted posts appear reversed — newest first — in
front of the previous rows, truncated to capacity). -/
theorem dispatch_order_newest_first (st : FirehoseState) (now : Nat)
    (hgate : st.scroll_paused_until ≤ now)
    (hmain : st.main_list.length ≤ 100)
    (hsplits : ∀ sp ∈ st.splits, sp.list.length ≤ 100) :
    (dispatch_tick st now).main_list =
      batch_result (main_accepts st.main_keyword) st.message_buffer st.main_list ∧
    (dispatch_tick st now).splits =
      st.splits.map (fun sp =>
        { sp with list :=
            (batch_result (split_accepts sp.filter_keyword)
              st.message_buffer sp.list) }) := by
  rw [dispatch_tick_open st now hgate]
  constructor
  · show (process_batch st st.message_buffer).main_list = _
    exact process_batch_main _ _ hmain
  · show (process_batch st st.message_buffer).splits = _
    rw [process_batch_splits]
    exact List.map_congr_left fun sp hm => split_deliver_eq _ sp (hsplits sp hm)

/-- State for the C5 witness: a filtered main pane, one split, two buffered
posts, deadline already lapsed. -/
def w5state : FirehoseState :=
  { main_keyword := "dog"
    main_list := []
    splits := [{ filter_keyword := "cat", list := [samplePost "old cat"] }]
    message_buffer := [samplePost "a CAT appears", samplePost "my DOG barks"]
    scroll_paused_until := 3 }

/-- Witness for C5 at an open tick at t=5. -/
theorem dispatch_order_newest_first_witness :
    w5state.scroll_paused_until ≤ 5 ∧
    w5state.main_list.length ≤ 100 ∧
    (∀ sp ∈ w5state.splits, sp.list.length ≤ 100) ∧
    ((dispatch_tick w5state 5).main_list =
       batch_result (main_accepts w5state.main_keyword) w5state.message_buffer
         w5state.main_list ∧
     (dispatch_tick w5state 5).splits =
       w5state.splits.map (fun sp =>
         { sp with list :=
             (batch_result (split_accepts sp.filter_keyword)
               w5state.message_buffer sp.list) })) :=
  ⟨by decide, by decide, by decide,
    dispatch_order_newest_first w5state 5 (by decide) (by decide) (by decide)⟩

/-- The posts of the §8 scenario, in arrival order. -/
def scenario_posts : List FirehosePost :=
  [samplePost "I like cats", samplePost "dogs only", samplePost "CAT scan results"]

/-- The §8 scenario state: a pipeline created at t=0, two splits added,
the first split's filter set to "cat", the second never configured, and the
three posts received into the Arrival Buffer. -/
def scenario_state : FirehoseState :=
  scenario_posts.foldl receive_post
    (split_search_changed_at (add_split (add_split (create_firehose_state 0))) 0 "cat")

/-- C6: With the primary filter empty, secondary A filtering on "cat" and
secondary B never configured, dispatching the single ungated batch
["I like cats", "dogs only", "CAT scan results"] leaves the primary buffer
with all three Events newest-first, A's buffer with
["CAT scan results", "I like cats"], and B's buffer empty. -/
theorem scenario_cat_split_buffers :
    (dispatch_tick scenario_state 0).main_list =
      [samplePost "CAT scan results", samplePost "dogs only",
       samplePost "I like cats"] ∧
    (dispatch_tick scenario_state 0).splits =
      [{ filter_keyword := "cat",
         list := [samplePost "CAT scan results", samplePost "I like cats"] },
       { filter_keyword := "", list := [] }] ∧
    (dispatch_tick scenario_state 0).message_buffer = [] := by
  decide

/-- Adding a message to an empty (freshly cleared) list yields that message. -/
lemma add_message_to_list_nil (p : FirehosePost) :
    add_message_to_list [] p = [p] := rfl

/-- C7: Replacing a consumer's filter (a search-text change) clears that
consumer's retention buffer entirely rather than re-filtering retained
Events — for the primary pane and for any split — and subsequently arriving
Events are evaluated under the new filter only: a post processed right after
the change lands in the buffer exactly when the new filter accepts it. -/
theorem filter_change_clears_buffer (st : FirehoseState) (kw kw2 : String)
    (p : FirehosePost) (sp : SplitPane) :
    (main_search_changed st kw).main_keyword = kw ∧
    (main_search_changed st kw).main_list = [] ∧
    (split_search_changed sp kw2).filter_keyword = kw2 ∧
    (split_search_changed sp kw2).list = [] ∧
    (process_post (main_search_changed st kw) p).main_list =
      (if main_accepts kw p then [p] else []) ∧
    split_deliver (split_search_changed sp kw2) [p] =
      { filter_keyword := kw2, list := if split_accepts kw2 p then [p] else [] } := by
  refine ⟨rfl, rfl, rfl, rfl, ?_, ?_⟩
  · by_cases hp : main_accepts kw p
    · simp [process_post, main_search_changed, hp, add_message_to_list_nil]
    · simp [process_post, main_search_changed, hp]
  · by_cases hp : split_accepts kw2 p
    · simp [split_deliver, split_search_changed, hp, add_message_to_list_nil]
    · simp [split_deliver, split_search_changed, hp]

/-- C8: Removing a secondary consumer removes only that consumer and discards
only its retention buffer: the primary pane's filter, list and the arrival
buffer are untouched, every surviving split is one of the previous splits
unchanged, and running any subsequent trace of arrivals and dispatch ticks
commutes with the removal — every remaining consumer ends with exactly the
contents it would have had with the removed consumer still present. -/
theorem close_split_frame (st : FirehoseState) (i : Nat)
    (tr : List (Nat ⊕ FirehosePost)) :
    (close_split st i).main_keyword = st.main_keyword ∧
    (close_split st i).main_list = st.main_list ∧
    (close_split st i).message_buffer = st.message_buffer ∧
    (close_split st i).scroll_paused_until = st.scroll_paused_until ∧
    (close_split st i).splits = st.splits.eraseIdx i ∧
    (∀ sp ∈ (close_split st i).splits, sp ∈ st.splits) ∧
    run_trace (close_split st i) tr = close_split (run_trace st tr) i ∧
    (run_trace (close_split st i) tr).main_list = (run_trace st tr).main_list ∧
    (run_trace (close_split st i) tr).splits =
      ((run_trace st tr).splits).eraseIdx i := by
  refine ⟨rfl, rfl, rfl, rfl, rfl, ?_, run_trace_close tr st i, ?_, ?_⟩
  · intro sp hsp
    exact (List.eraseIdx_sublist st.splits i).subset hsp
  · rw [run_trace_close tr st i]
    rfl
  · rw [run_trace_close tr st i]
    rfl

/-- C9: When a forward of a decoded Event to the intake queue fails because no
receiver remains, the Ingestion Bridge stops pulling from the Adapter — the
result is independent of everything after the failing send — and terminates by
returning success (`Except.ok`), never an error: on any stream it returns `Ok`
carrying exactly the posts sent while the receiver was alive. -/
theorem jetstream_clean_shutdown (es1 es2 : List BridgeEvent) (alive : Nat)
    (h : alive ≤ (createdPosts es1).length) :
    start_jetstream (es1 ++ es2) alive =
      Except.ok ((createdPosts es1).take alive) ∧
    ∀ (es : List BridgeEvent) (a : Nat),
      start_jetstream es a = Except.ok ((createdPosts es).take a) := by
  have hrun : ∀ (es : List BridgeEvent) (a : Nat),
      start_jetstream es a = Except.ok ((createdPosts es).take a) := by
    intro es a
    simpa [start_jetstream] using run_jetstream_loop_eq es a []
  refine ⟨?_, hrun⟩
  rw [hrun, createdPosts_append, List.take_append_of_le_length h]

/-- Witness for C9: the receiver dies after one send; the bridge forwards only
the first post, ignores the rest of the stream, and returns `Ok`. -/
theorem jetstream_clean_shutdown_witness :
    (1 : Nat) ≤ (createdPosts [BridgeEvent.commitCreatePost (samplePost "first"),
      BridgeEvent.otherEvent,
      BridgeEvent.commitCreatePost (samplePost "second")]).length ∧
    (start_jetstream ([BridgeEvent.commitCreatePost (samplePost "first"),
        BridgeEvent.otherEvent,
        BridgeEvent.commitCreatePost (samplePost "second")] ++
        [BridgeEvent.commitCreatePost (samplePost "after close")]) 1 =
      Except.ok ((createdPosts [BridgeEvent.commitCreatePost (samplePost "first"),
        BridgeEvent.otherEvent,
        BridgeEvent.commitCreatePost (samplePost "second")]).take 1) ∧
     ∀ (es : List BridgeEvent) (a : Nat),
       start_jetstream es a = Except.ok ((createdPosts es).take a)) :=
  ⟨by decide,
    jetstream_clean_shutdown
      [BridgeEvent.commitCreatePost (samplePost "first"), BridgeEvent.otherEvent,
       BridgeEvent.commitCreatePost (samplePost "second")]
      [BridgeEvent.commitCreatePost (samplePost "after close")] 1 (by decide)⟩

/-- C10: At pipeline creation the gate's suspend deadline is initialized to
the creation instant itself, so before any scroll signal `is_paused` is false
at every dispatch tick at or after creation, and buffered Events are
dispatched without any initial suspension: the buffer is drained and the
(empty-filtered) primary pane receives the whole batch. -/
theorem initial_gate_open (t0 now : Nat) (ps : List FirehosePost)
    (h : t0 ≤ now) :
    (create_firehose_state t0).scroll_paused_until = t0 ∧
    is_paused (ps.foldl receive_post (create_firehose_state t0)) now = false ∧
    (dispatch_tick (ps.foldl receive_post (create_firehose_state t0))
        now).message_buffer = [] ∧
    (dispatch_tick (ps.foldl receive_post (create_firehose_state t0))
        now).main_list = batch_result (main_accepts "") ps [] := by
  rw [foldl_receive]
  have hbuf : ({ create_firehose_state t0 with
      message_buffer := (create_firehose_state t0).message_buffer ++ ps } :
        FirehoseState) =
      { create_firehose_state t0 with message_buffer := ps } := by
    simp [create_firehose_state]
  rw [hbuf]
  refine ⟨rfl, ?_, ?_, ?_⟩
  · simp only [is_paused, decide_eq_false_iff_not]
    show ¬ t0 > now
    omega
  · rw [dispatch_tick_open _ now (by exact h)]
  · rw [dispatch_tick_open _ now (by exact h)]
    show (process_batch { create_firehose_state t0 with message_buffer := ps }
      ps).main_list = _
    exact process_batch_main ps _ (by simp [create_firehose_state])

/-- Witness for C10: a pipeline created at t=0 with one buffered post is not
paused at the first tick and dispatches the post. -/
theorem initial_gate_open_witness :
    (0 : Nat) ≤ 0 ∧
    ((create_firehose_state 0).scroll_paused_until = 0 ∧
     is_paused ([samplePost "hello"].foldl receive_post
       (create_firehose_state 0)) 0 = false ∧
     (dispatch_tick ([samplePost "hello"].foldl receive_post
         (create_firehose_state 0)) 0).message_buffer = [] ∧
     (dispatch_tick ([samplePost "hello"].foldl receive_post
         (create_firehose_state 0)) 0).main_list =
       batch_result (main_accepts "") [samplePost "hello"] []) :=
  ⟨by decide, initial_gate_open 0 0 [samplePost "hello"] (by decide)⟩

/-- Witness for C1 at a concrete list, post and state. -/
theorem retention_buffer_bounded_witness :
    (add_message_to_list [samplePost "old cat"] (samplePost "a CAT appears")).length ≤ 100 ∧
    ((process_post w5state (samplePost "a CAT appears")).main_list.length ≤ 100 ∨
      (process_post w5state (samplePost "a CAT appears")).main_list =
        w5state.main_list) ∧
    (∀ sp ∈ (process_post w5state (samplePost "a CAT appears")).splits,
      sp.list.length ≤ 100 ∨ sp ∈ w5state.splits) :=
  retention_buffer_bounded [samplePost "old cat"] (samplePost "a CAT appears") w5state

/-- Witness for C7 at the keyword change "dog" on the main pane and "cat" on a
split, followed by one post. -/
theorem filter_change_clears_buffer_witness :
    (main_search_changed w5state "dog").main_keyword = "dog" ∧
    (main_search_changed w5state "dog").main_list = [] ∧
    (split_search_changed { filter_keyword := "old", list := [samplePost "old cat"] }
      "cat").filter_keyword = "cat" ∧
    (split_search_changed { filter_keyword := "old", list := [samplePost "old cat"] }
      "cat").list = [] ∧
    (process_post (main_search_changed w5state "dog")
        (samplePost "my DOG barks")).main_list =
      (if main_accepts "dog" (samplePost "my DOG barks")
       then [samplePost "my DOG barks"] else []) ∧
    split_deliver (split_search_changed
        { filter_keyword := "old", list := [samplePost "old cat"] } "cat")
        [samplePost "my DOG barks"] =
      { filter_keyword := "cat",
        list := if split_accepts "cat" (samplePost "my DOG barks")
                then [samplePost "my DOG barks"] else [] } :=
  filter_change_clears_buffer w5state "dog" "cat" (samplePost "my DOG barks")
    { filter_keyword := "old", list := [samplePost "old cat"] }

/-- Witness for C8: removing the first of two splits and replaying a short
trace. -/
theorem close_split_frame_witness :
    (close_split scenario_state 0).main_keyword = scenario_state.main_keyword ∧
    (close_split scenario_state 0).main_list = scenario_state.main_list ∧
    (close_split scenario_state 0).message_buffer = scenario_state.message_buffer ∧
    (close_split scenario_state 0).scroll_paused_until =
      scenario_state.scroll_paused_until ∧
    (close_split scenario_state 0).splits = scenario_state.splits.eraseIdx 0 ∧
    (∀ sp ∈ (close_split scenario_state 0).splits, sp ∈ scenario_state.splits) ∧
    run_trace (close_split scenario_state 0) w2trace =
      close_split (run_trace scenario_state w2trace) 0 ∧
    (run_trace (close_split scenario_state 0) w2trace).main_list =
      (run_trace scenario_state w2trace).main_list ∧
    (run_trace (close_split scenario_state 0) w2trace).splits =
      ((run_trace scenario_state w2trace).splits).eraseIdx 0 :=
  close_split_frame scenario_state 0 w2trace
